import Mathlib

set_option maxRecDepth 100000

/-!
# Verification of the Secure-Transaction envelope-encryption core

Shallow embedding of `packages/crypto/src/envelope.ts`: hex codec,
AEAD wrapper, `parseMasterKeyHex`, `encryptTransaction`,
`validateRecordShape`, `decryptTransaction`.

Bytes are modelled as `Nat` (kept below 256 by construction), buffers as
`List Nat`, thrown `Error` values as `Except String`. The randomness the
constructor draws (`randomBytes`, `randomUUID`, `new Date()`) is passed as
an explicit parameter. The two host-provided primitives that are not part
of the repository — the AES-256-GCM core behind `createCipheriv` /
`createDecipheriv`, and JSON/UTF-8 serialization — are modelled from the
spec's contracts for them (see the doc comments on `keystream`, `gcmTag`,
`serializePayload`, `dateParseOk`).
-/

namespace SecureTx

/-! ## Hex codec (`isValidHex`, `assertHexLength`, `fromHex`, `toString("hex")`) -/

/-- Value of a hex digit character, `none` for characters outside
`[0-9a-fA-F]`. -/
def hexDigitVal (c : Char) : Option Nat :=
  if 48 ≤ c.toNat ∧ c.toNat ≤ 57 then some (c.toNat - 48)
  else if 97 ≤ c.toNat ∧ c.toNat ≤ 102 then some (c.toNat - 87)
  else if 65 ≤ c.toNat ∧ c.toNat ≤ 70 then some (c.toNat - 55)
  else none

/-- Membership in `[0-9a-fA-F]`. -/
def isHexChar (c : Char) : Bool := (hexDigitVal c).isSome

/-- The test `/^[0-9a-fA-F]+$/.test(str)`: one or more hex characters and
nothing else.  Note the `+`: the empty string does NOT match. -/
def hexRegexTest (s : String) : Bool := !s.isEmpty && s.data.all isHexChar

/-- `isValidHex` from envelope.ts: even length and the regex test. -/
def isValidHex (s : String) : Bool := s.length % 2 == 0 && hexRegexTest s

/-- `assertHexLength(hex, expectedBytes, field)` from envelope.ts. -/
def assertHexLength (hex : String) (expectedBytes : Nat) (field : String) :
    Except String Unit :=
  if !isValidHex hex then .error (field ++ ": invalid hex")
  else if hex.length ≠ expectedBytes * 2 then .error (field ++ ": invalid length")
  else .ok ()

/-- Decode a list of hex characters two at a time (`Buffer.from(hex, "hex")`
on an already-validated string). -/
def hexPairsToBytes : List Char → List Nat
  | c1 :: c2 :: rest =>
      ((hexDigitVal c1).getD 0 * 16 + (hexDigitVal c2).getD 0) :: hexPairsToBytes rest
  | _ => []

/-- `fromHex(hex, field)` from envelope.ts. -/
def fromHex (hex : String) (field : String) : Except String (List Nat) :=
  if !isValidHex hex then .error (field ++ ": invalid hex")
  else .ok (hexPairsToBytes hex.data)

/-- Lowercase hex digit for a value below 16 (`Buffer.toString("hex")`
digit alphabet). -/
def hexDigitChar (n : Nat) : Char :=
  if n < 10 then Char.ofNat (48 + n) else Char.ofNat (87 + n)

/-- Two lowercase hex characters per byte. -/
def bytesToHexChars : List Nat → List Char
  | [] => []
  | b :: bs => hexDigitChar (b / 16) :: hexDigitChar (b % 16) :: bytesToHexChars bs

/-- `buf.toString("hex")`: lowercase hex encoding of a byte buffer. -/
def toHex (bs : List Nat) : String := String.mk (bytesToHexChars bs)

/-! ## Timestamp validity -/

/-- Decimal digit test. -/
def isDigit (c : Char) : Bool := decide (48 ≤ c.toNat ∧ c.toNat ≤ 57)

/-- Modelled from the spec: the `Date.parse` validity check of §4.4
("`createdAt` parses as a valid timestamp") is provided by the host JS
engine, not by this repository; it is modelled as recognition of the
ISO-8601 UTC shape produced by `Date.prototype.toISOString`
(`YYYY-MM-DDTHH:MM:SS.mmmZ`), which `Date.parse` always accepts. -/
def dateParseOk (s : String) : Bool :=
  match s.data with
  | [y1, y2, y3, y4, d1, m1, m2, d2, a1, a2, tc, h1, h2, c1, n1, n2, c2,
     s1, s2, dt, f1, f2, f3, zc] =>
      isDigit y1 && isDigit y2 && isDigit y3 && isDigit y4 && d1 == '-' &&
      isDigit m1 && isDigit m2 && d2 == '-' && isDigit a1 && isDigit a2 &&
      tc == 'T' && isDigit h1 && isDigit h2 && c1 == ':' && isDigit n1 &&
      isDigit n2 && c2 == ':' && isDigit s1 && isDigit s2 && dt == '.' &&
      isDigit f1 && isDigit f2 && isDigit f3 && zc == 'Z'
  | _ => false

/-! ## The AEAD primitive (`aesGcmEncrypt`, `aesGcmDecrypt`) -/

def NONCE_BYTES : Nat := 12
def TAG_BYTES : Nat := 16
def KEY_BYTES : Nat := 32

/-- Injectively-flavoured accumulator used by the modelled GCM core. -/
def byteFold (acc : Nat) (bs : List Nat) : Nat :=
  bs.foldl (fun a b => (a * 257 + b + 1) % (2 ^ 128)) acc

/-- Modelled from the spec: the AES-256-GCM keystream provided by
`node:crypto` (`createCipheriv("aes-256-gcm", ...)`) is not repository
code; per §4.2 it is a deterministic length-preserving stream determined
by key and nonce, modelled as an arbitrary concrete byte function of
(key, nonce, position). -/
def keystream (key nonce : List Nat) (i : Nat) : Nat :=
  (byteFold (byteFold 11 key) nonce + 131 * i) % 256

/-- XOR the buffer with the keystream starting at position `i`. -/
def gcmCipherFrom (key nonce : List Nat) (i : Nat) : List Nat → List Nat
  | [] => []
  | b :: bs => (b ^^^ keystream key nonce i) :: gcmCipherFrom key nonce (i + 1) bs

/-- The (involutive) GCM stream transform: encryption and decryption of a
buffer under key and nonce. -/
def gcmCipher (key nonce pt : List Nat) : List Nat := gcmCipherFrom key nonce 0 pt

/-- Modelled from the spec: the 16-byte GCM authentication tag computed by
`node:crypto`; per §4.2 it is a deterministic function of key, nonce,
ciphertext and AAD, verified on open. Modelled as a concrete 16-byte
digest of those four inputs. -/
def gcmTag (key nonce ct aad : List Nat) : List Nat :=
  let h := byteFold (byteFold (byteFold (byteFold 7 key + 1) nonce + 2) ct + 3) aad
  (List.range 16).map fun i => h / 256 ^ i % 256

/-- Result of one AEAD seal: nonce, ciphertext, tag. -/
structure Sealed where
  nonce : List Nat
  ciphertext : List Nat
  tag : List Nat
deriving DecidableEq, Repr

/-- `aesGcmEncrypt(key, plaintext, aad)` from envelope.ts.  The source
draws the nonce with `randomBytes(NONCE_BYTES)`; the model receives that
sampled nonce as the `nonce` argument. -/
def aesGcmEncrypt (key nonce plaintext aad : List Nat) : Except String Sealed :=
  if key.length ≠ KEY_BYTES then .error "key: invalid length"
  else
    let ciphertext := gcmCipher key nonce plaintext
    .ok ⟨nonce, ciphertext, gcmTag key nonce ciphertext aad⟩

/-- `aesGcmDecrypt(key, nonce, ciphertext, tag, aad)` from envelope.ts:
three length guards, then the GCM open; any failure inside the
`try { ... }` block is replaced by the single message
`"decryption failed"`. -/
def aesGcmDecrypt (key nonce ciphertext tag aad : List Nat) :
    Except String (List Nat) :=
  if key.length ≠ KEY_BYTES then .error "key: invalid length"
  else if nonce.length ≠ NONCE_BYTES then .error "nonce: invalid length"
  else if tag.length ≠ TAG_BYTES then .error "tag: invalid length"
  else if gcmTag key nonce ciphertext aad = tag then
    .ok (gcmCipher key nonce ciphertext)
  else .error "decryption failed"

/-! ## Payload values and their canonical byte serialization

The payload parameter of `encryptTransaction` has type `unknown`; the
source serializes it with `JSON.stringify` + UTF-8 and deserializes with
UTF-8 + `JSON.parse`, both provided by the host JS engine, not by this
repository.  Payload values are modelled as JSON trees (`Json`), plus a
marker for values whose JSON serialization is undefined
(`JSON.stringify(x) === undefined`, e.g. `undefined` or a function). -/

mutual

/-- A JSON value: the model of a serializable payload. -/
inductive Json where
  | null
  | bool (b : Bool)
  | num (n : Int)
  | str (s : String)
  | arr (elems : JsonList)
  | obj (fields : JsonFields)

/-- Elements of a JSON array. -/
inductive JsonList where
  | nil
  | cons (hd : Json) (tl : JsonList)

/-- Key/value fields of a JSON object, in insertion order. -/
inductive JsonFields where
  | fnil
  | fcons (key : String) (val : Json) (tl : JsonFields)

end

/-- A JavaScript value passed as the `payload` argument: either a JSON
tree or a value with no JSON serialization. -/
inductive JsValue where
  | json (j : Json)
  | notSerializable

/-- Unary encoding of a natural number, terminated by a 0 byte. -/
def natUnary : Nat → List Nat
  | 0 => [0]
  | n + 1 => 1 :: natUnary n

/-- A character as three base-256 bytes of its code point. -/
def encodeChar (c : Char) : List Nat :=
  [c.toNat / 65536, c.toNat / 256 % 256, c.toNat % 256]

/-- A character sequence: each character tagged by a 1 byte, terminated by
a 0 byte. -/
def encodeCharList : List Char → List Nat
  | [] => [0]
  | c :: cs => 1 :: (encodeChar c ++ encodeCharList cs)

/-- Byte serialization of a string. -/
def encodeString (s : String) : List Nat := encodeCharList s.data

/-- Byte serialization of an integer: sign byte, then unary magnitude. -/
def encodeInt : Int → List Nat
  | .ofNat n => 0 :: natUnary n
  | .negSucc n => 1 :: natUnary (n + 1)

mutual

/-- Modelled from the spec: "Serialize `payload` to a canonical byte
representation" (§4.3 step 3).  `JSON.stringify` + UTF-8 is host-engine
code; it is modelled as this canonical injective byte serialization of
JSON trees. -/
def encodeJson : Json → List Nat
  | .null => [0]
  | .bool false => [1]
  | .bool true => [2]
  | .num n => 3 :: encodeInt n
  | .str s => 4 :: encodeString s
  | .arr xs => 5 :: encodeItems xs
  | .obj fs => 6 :: encodeFieldList fs

/-- Serialization of array elements, 1-tagged, 0-terminated. -/
def encodeItems : JsonList → List Nat
  | .nil => [0]
  | .cons x xs => 1 :: (encodeJson x ++ encodeItems xs)

/-- Serialization of object fields, 1-tagged, 0-terminated. -/
def encodeFieldList : JsonFields → List Nat
  | .fnil => [0]
  | .fcons k v fs => 1 :: (encodeString k ++ (encodeJson v ++ encodeFieldList fs))

end

/-- Decoder for `natUnary`. -/
def decodeNatUnary : List Nat → Option (Nat × List Nat)
  | 0 :: rest => some (0, rest)
  | 1 :: rest =>
    match decodeNatUnary rest with
    | some (n, r) => some (n + 1, r)
    | none => none
  | _ => none

/-- Decoder for `encodeCharList`. -/
def decodeCharList : List Nat → Option (List Char × List Nat)
  | 0 :: rest => some ([], rest)
  | 1 :: b2 :: b1 :: b0 :: rest =>
    match decodeCharList rest with
    | some (cs, r) => some (Char.ofNat (b2 * 65536 + b1 * 256 + b0) :: cs, r)
    | none => none
  | _ => none

/-- Decoder for `encodeString`. -/
def decodeString (bs : List Nat) : Option (String × List Nat) :=
  match decodeCharList bs with
  | some (cs, r) => some (String.mk cs, r)
  | none => none

/-- Decoder for `encodeInt`. -/
def decodeInt : List Nat → Option (Int × List Nat)
  | 0 :: rest =>
    match decodeNatUnary rest with
    | some (n, r) => some ((n : Int), r)
    | none => none
  | 1 :: rest =>
    match decodeNatUnary rest with
    | some (n, r) => some (-(n : Int), r)
    | none => none
  | _ => none

mutual

/-- Fueled decoder for `encodeJson`. -/
def decodeJson : Nat → List Nat → Option (Json × List Nat)
  | 0, _ => none
  | _ + 1, 0 :: rest => some (.null, rest)
  | _ + 1, 1 :: rest => some (.bool false, rest)
  | _ + 1, 2 :: rest => some (.bool true, rest)
  | _ + 1, 3 :: rest =>
    match decodeInt rest with
    | some (n, r) => some (.num n, r)
    | none => none
  | _ + 1, 4 :: rest =>
    match decodeString rest with
    | some (s, r) => some (.str s, r)
    | none => none
  | fuel + 1, 5 :: rest =>
    match decodeItems fuel rest with
    | some (xs, r) => some (.arr xs, r)
    | none => none
  | fuel + 1, 6 :: rest =>
    match decodeFieldList fuel rest with
    | some (fs, r) => some (.obj fs, r)
    | none => none
  | _ + 1, _ => none

/-- Fueled decoder for `encodeItems`. -/
def decodeItems : Nat → List Nat → Option (JsonList × List Nat)
  | 0, _ => none
  | _ + 1, 0 :: rest => some (.nil, rest)
  | fuel + 1, 1 :: rest =>
    match decodeJson fuel rest with
    | some (x, r) =>
      match decodeItems fuel r with
      | some (xs, r2) => some (.cons x xs, r2)
      | none => none
    | none => none
  | _ + 1, _ => none

/-- Fueled decoder for `encodeFieldList`. -/
def decodeFieldList : Nat → List Nat → Option (JsonFields × List Nat)
  | 0, _ => none
  | _ + 1, 0 :: rest => some (.fnil, rest)
  | fuel + 1, 1 :: rest =>
    match decodeString rest with
    | some (k, r) =>
      match decodeJson fuel r with
      | some (v, r2) =>
        match decodeFieldList fuel r2 with
        | some (fs, r3) => some (.fcons k v fs, r3)
        | none => none
      | none => none
    | none => none
  | _ + 1, _ => none

end

/-- `serializePayload payload`: `Buffer.from(JSON.stringify(payload),
"utf8")`, `none` when `JSON.stringify` returns `undefined`. -/
def serializePayload : JsValue → Option (List Nat)
  | .json j => some (encodeJson j)
  | .notSerializable => none

/-- Modelled from the spec: "Deserialize" (§4.5 step 6) —
`JSON.parse(plaintext.toString("utf8"))`, the partial inverse of
`serializePayload`; `none` models a thrown parse error. -/
def deserializePayload (bs : List Nat) : Option Json :=
  match decodeJson (bs.length + 1) bs with
  | some (j, []) => some j
  | _ => none

/-! ## The secure record and the two entry points -/

/-- The AAD metadata object
`{id, partyId, createdAt, alg, mk_version}` as a JSON tree
(field insertion order as in the source). -/
def aadJson (id partyId createdAt alg : String) (mkVersion : Int) : Json :=
  .obj (.fcons "id" (.str id)
    (.fcons "partyId" (.str partyId)
      (.fcons "createdAt" (.str createdAt)
        (.fcons "alg" (.str alg)
          (.fcons "mk_version" (.num mkVersion) .fnil)))))

/-- `Buffer.from(JSON.stringify({id, partyId, createdAt, alg, mk_version}),
"utf8")`: the canonical AAD bytes. -/
def aadBytes (id partyId createdAt alg : String) (mkVersion : Int) : List Nat :=
  encodeJson (aadJson id partyId createdAt alg mkVersion)

/-- `TxSecureRecord` from types.ts: the persisted record, all binary
fields hex-encoded strings. -/
structure TxSecureRecord where
  id : String
  partyId : String
  createdAt : String
  payload_nonce : String
  payload_ct : String
  payload_tag : String
  dek_wrap_nonce : String
  dek_wrapped : String
  dek_wrap_tag : String
  alg : String
  mk_version : Int
deriving DecidableEq, Repr, Inhabited

/-- `parseMasterKeyHex` from envelope.ts. -/
def parseMasterKeyHex (masterKeyHex : String) : Except String (List Nat) :=
  match assertHexLength masterKeyHex KEY_BYTES "master key" with
  | .error e => .error e
  | .ok _ => .ok (hexPairsToBytes masterKeyHex.data)

/-- The random and ambient values `encryptTransaction` draws
(`randomBytes(KEY_BYTES)` for the DEK, the nonce drawn inside each of the
two `aesGcmEncrypt` calls, `randomUUID()`, `new Date().toISOString()`),
passed to the model as explicit parameters. -/
structure EncRandomness where
  dek : List Nat
  payloadNonce : List Nat
  wrapNonce : List Nat
  id : String
  createdAt : String

/-- `encryptTransaction({partyId, payload, masterKeyHex})` from
envelope.ts.  `partyId` is typed `String`, so the source's
`typeof partyId !== "string"` arm cannot fire in the model; `!partyId`
is the empty-string test. -/
def encryptTransaction (partyId : String) (payload : JsValue)
    (masterKeyHex : String) (rnd : EncRandomness) :
    Except String TxSecureRecord :=
  if partyId = "" then .error "partyId is required"
  else
  match parseMasterKeyHex masterKeyHex with
  | .error e => .error e
  | .ok masterKey =>
  match serializePayload payload with
  | none => .error "payload is not JSON-serializable"
  | some payloadBuffer =>
  let aad := aadBytes rnd.id partyId rnd.createdAt "AES-256-GCM" 1
  match aesGcmEncrypt rnd.dek rnd.payloadNonce payloadBuffer aad with
  | .error e => .error e
  | .ok payloadEncrypted =>
  match aesGcmEncrypt masterKey rnd.wrapNonce rnd.dek aad with
  | .error e => .error e
  | .ok wrappedDek =>
  .ok {
    id := rnd.id
    partyId := partyId
    createdAt := rnd.createdAt
    payload_nonce := toHex payloadEncrypted.nonce
    payload_ct := toHex payloadEncrypted.ciphertext
    payload_tag := toHex payloadEncrypted.tag
    dek_wrap_nonce := toHex wrappedDek.nonce
    dek_wrapped := toHex wrappedDek.ciphertext
    dek_wrap_tag := toHex wrappedDek.tag
    alg := "AES-256-GCM"
    mk_version := 1 }

/-- `validateRecordShape(record)` from envelope.ts. -/
def validateRecordShape (record : TxSecureRecord) : Except String Unit :=
  if record.id = "" then .error "id is required"
  else if record.partyId = "" then .error "partyId is required"
  else if record.createdAt = "" then .error "createdAt is required"
  else if !dateParseOk record.createdAt then .error "createdAt: invalid format"
  else if record.alg ≠ "AES-256-GCM" then .error "unsupported algorithm"
  else if record.mk_version ≠ 1 then .error "unsupported master key version"
  else
  match assertHexLength record.payload_nonce NONCE_BYTES "payload_nonce" with
  | .error e => .error e
  | .ok _ =>
  match assertHexLength record.payload_tag TAG_BYTES "payload_tag" with
  | .error e => .error e
  | .ok _ =>
  match assertHexLength record.dek_wrap_nonce NONCE_BYTES "dek_wrap_nonce" with
  | .error e => .error e
  | .ok _ =>
  match assertHexLength record.dek_wrap_tag TAG_BYTES "dek_wrap_tag" with
  | .error e => .error e
  | .ok _ =>
  match fromHex record.payload_ct "payload_ct" with
  | .error e => .error e
  | .ok _ =>
  match fromHex record.dek_wrapped "dek_wrapped" with
  | .error e => .error e
  | .ok _ => .ok ()

/-- `decryptTransaction({record, masterKeyHex})` from envelope.ts. -/
def decryptTransaction (record : TxSecureRecord) (masterKeyHex : String) :
    Except String Json :=
  match validateRecordShape record with
  | .error e => .error e
  | .ok _ =>
  match parseMasterKeyHex masterKeyHex with
  | .error e => .error e
  | .ok masterKey =>
  let aad := aadBytes record.id record.partyId record.createdAt
    record.alg record.mk_version
  match fromHex record.dek_wrap_nonce "dek_wrap_nonce" with
  | .error e => .error e
  | .ok wrapNonce =>
  match fromHex record.dek_wrapped "dek_wrapped" with
  | .error e => .error e
  | .ok wrapCt =>
  match fromHex record.dek_wrap_tag "dek_wrap_tag" with
  | .error e => .error e
  | .ok wrapTag =>
  match aesGcmDecrypt masterKey wrapNonce wrapCt wrapTag aad with
  | .error e => .error e
  | .ok dek =>
  if dek.length ≠ KEY_BYTES then .error "decryption failed"
  else
  match fromHex record.payload_nonce "payload_nonce" with
  | .error e => .error e
  | .ok payloadNonce =>
  match fromHex record.payload_ct "payload_ct" with
  | .error e => .error e
  | .ok payloadCt =>
  match fromHex record.payload_tag "payload_tag" with
  | .error e => .error e
  | .ok payloadTag =>
  match aesGcmDecrypt dek payloadNonce payloadCt payloadTag aad with
  | .error e => .error e
  | .ok plaintext =>
  match deserializePayload plaintext with
  | some v => .ok v
  | none => .error "decryption failed"

mutual

/-- Fuel sufficient for `decodeJson` on the encoding of `j`. -/
def jsonFuel : Json → Nat
  | .null => 1
  | .bool _ => 1
  | .num _ => 1
  | .str _ => 1
  | .arr xs => 1 + itemsFuel xs
  | .obj fs => 1 + fieldsFuel fs

/-- Fuel sufficient for `decodeItems` on the encoding of `xs`. -/
def itemsFuel : JsonList → Nat
  | .nil => 1
  | .cons x xs => 1 + jsonFuel x + itemsFuel xs

/-- Fuel sufficient for `decodeFieldList` on the encoding of `fs`. -/
def fieldsFuel : JsonFields → Nat
  | .fnil => 1
  | .fcons _ v fs => 1 + jsonFuel v + fieldsFuel fs

end

deriving instance DecidableEq for Json
deriving instance DecidableEq for JsValue
deriving instance DecidableEq for Except

/-! ## Lowercase-hex test and concrete fixtures used by witnesses -/

/-- Membership in `[0-9a-f]`: the alphabet `toString("hex")` emits. -/
def isLowerHexChar (c : Char) : Bool :=
  decide ((48 ≤ c.toNat ∧ c.toNat ≤ 57) ∨ (97 ≤ c.toNat ∧ c.toNat ≤ 102))

/-- A well-formed test master key (the one the repository test suite uses). -/
def mkHex0 : String :=
  "0123456789abcdef0123456789abcdef0123456789abcdef0123456789abcdef"

/-- Its parsed bytes. -/
def mkB0 : List Nat := hexPairsToBytes mkHex0.data

/-- Concrete well-formed randomness for the constructor. -/
def rnd0 : EncRandomness :=
  { dek := List.range 32
    payloadNonce := List.range 12
    wrapNonce := (List.range 12).map (fun i => i + 16)
    id := "rec-0001"
    createdAt := "2026-01-02T03:04:05.678Z" }

/-- Same randomness with a different generated id. -/
def rnd1 : EncRandomness := { rnd0 with id := "rec-0002" }

/-- The record `encryptTransaction` produces from the fixtures. -/
def rec0 : TxSecureRecord :=
  ((encryptTransaction "party_123" (.json .null) mkHex0 rnd0).toOption).getD
    default

/-- The record produced under `rnd1`. -/
def rec1 : TxSecureRecord :=
  ((encryptTransaction "party_123" (.json .null) mkHex0 rnd1).toOption).getD
    default

/-- `rec0` with its `partyId` metadata altered after construction. -/
def rec0meta : TxSecureRecord := { rec0 with partyId := "party_999" }

/-- `rec0` with a tampered payload ciphertext. -/
def rec0ct : TxSecureRecord := { rec0 with payload_ct := "ff" }

/-- `rec0` with a 1-byte `payload_nonce` (2 hex characters). -/
def rec0nonce : TxSecureRecord := { rec0 with payload_nonce := "00" }

/-- `rec0` with a 10-byte wrapped-DEK field and a wrap tag honestly
recomputed over it (possible only for a holder of the master key):
passes the validator, opens at the wrap layer, and trips the defensive
DEK-length check. -/
def rec0short : TxSecureRecord :=
  { rec0 with
    dek_wrapped := toHex (List.range 10)
    dek_wrap_tag := toHex (gcmTag mkB0 (hexPairsToBytes rec0.dek_wrap_nonce.data)
      (List.range 10)
      (aadBytes rec0.id rec0.partyId rec0.createdAt rec0.alg rec0.mk_version)) }

/-! ## Lemmas: hex codec -/

theorem hexDigitVal_lt {c : Char} {n : Nat} (h : hexDigitVal c = some n) :
    n < 16 := by
  unfold hexDigitVal at h
  split at h
  · simp only [Option.some.injEq] at h; omega
  · split at h
    · simp only [Option.some.injEq] at h; omega
    · split at h
      · simp only [Option.some.injEq] at h; omega
      · exact absurd h (by simp)

theorem hexDigitVal_hexDigitChar {n : Nat} (h : n < 16) :
    hexDigitVal (hexDigitChar n) = some n := by
  interval_cases n <;> decide

theorem isHexChar_hexDigitChar {n : Nat} (h : n < 16) :
    isHexChar (hexDigitChar n) = true := by
  simp [isHexChar, hexDigitVal_hexDigitChar h]

theorem hexPairsToBytes_bytesToHexChars {bs : List Nat}
    (h : ∀ b ∈ bs, b < 256) : hexPairsToBytes (bytesToHexChars bs) = bs := by
  induction bs with
  | nil => rfl
  | cons b bs ih =>
    have hb : b < 256 := h b (List.mem_cons_self b bs)
    have h1 : b / 16 < 16 := by omega
    have h2 : b % 16 < 16 := Nat.mod_lt _ (by norm_num)
    simp only [bytesToHexChars, hexPairsToBytes,
      hexDigitVal_hexDigitChar h1, hexDigitVal_hexDigitChar h2, Option.getD_some]
    rw [ih (fun x hx => h x (List.mem_cons_of_mem _ hx))]
    congr 1
    omega

theorem bytesToHexChars_length (bs : List Nat) :
    (bytesToHexChars bs).length = 2 * bs.length := by
  induction bs with
  | nil => rfl
  | cons b bs ih => simp [bytesToHexChars, ih]; omega

theorem toHex_length (bs : List Nat) : (toHex bs).length = 2 * bs.length := by
  simp [toHex, bytesToHexChars_length]

theorem bytesToHexChars_all_hex {bs : List Nat} (h : ∀ b ∈ bs, b < 256) :
    (bytesToHexChars bs).all isHexChar = true := by
  induction bs with
  | nil => rfl
  | cons b bs ih =>
    have hb : b < 256 := h b (List.mem_cons_self b bs)
    simp only [bytesToHexChars, List.all_cons, Bool.and_eq_true]
    exact ⟨isHexChar_hexDigitChar (by omega),
      isHexChar_hexDigitChar (Nat.mod_lt _ (by norm_num)),
      ih (fun x hx => h x (List.mem_cons_of_mem _ hx))⟩

theorem isValidHex_toHex {bs : List Nat} (hne : bs ≠ [])
    (h : ∀ b ∈ bs, b < 256) : isValidHex (toHex bs) = true := by
  have hlen : (toHex bs).length = 2 * bs.length := toHex_length bs
  have hbs : bs.length ≠ 0 := fun h0 => hne (List.length_eq_zero.mp h0)
  have hemp : (toHex bs).isEmpty = false := by
    rw [Bool.eq_false_iff]
    intro habs
    rw [String.isEmpty_iff] at habs
    have h0 : (toHex bs).length = 0 := by rw [habs]; decide
    omega
  have hdata : (toHex bs).data = bytesToHexChars bs := rfl
  unfold isValidHex hexRegexTest
  rw [hlen, hemp, hdata, bytesToHexChars_all_hex h]
  simp

theorem fromHex_toHex {bs : List Nat} (f : String) (hne : bs ≠ [])
    (h : ∀ b ∈ bs, b < 256) : fromHex (toHex bs) f = .ok bs := by
  simp [fromHex, isValidHex_toHex hne h]
  exact hexPairsToBytes_bytesToHexChars h

theorem assertHexLength_toHex {bs : List Nat} {k : Nat} (f : String)
    (hlen : bs.length = k) (hk : k ≠ 0) (h : ∀ b ∈ bs, b < 256) :
    assertHexLength (toHex bs) k f = .ok () := by
  have hne : bs ≠ [] := by
    intro h0; apply hk; rw [← hlen, h0]; rfl
  simp [assertHexLength, isValidHex_toHex hne h, toHex_length, hlen]
  omega

theorem hexPairsToBytes_length (l : List Char) :
    (hexPairsToBytes l).length = l.length / 2 := by
  induction l using hexPairsToBytes.induct with
  | case1 c1 c2 rest ih => simp [hexPairsToBytes, ih]; omega
  | case2 l h =>
    have hl : hexPairsToBytes l = [] := by
      cases l with
      | nil => rfl
      | cons c cs =>
        cases cs with
        | nil => rfl
        | cons c2 cs2 => exact absurd rfl (h c c2 cs2)
    have hlen : l.length ≤ 1 := by
      cases l with
      | nil => simp
      | cons c cs =>
        cases cs with
        | nil => simp
        | cons c2 cs2 => exact absurd rfl (h c c2 cs2)
    rw [hl]
    simp only [List.length_nil]
    omega

theorem hexPairsToBytes_lt (l : List Char) :
    ∀ b ∈ hexPairsToBytes l, b < 256 := by
  induction l using hexPairsToBytes.induct with
  | case1 c1 c2 rest ih =>
    intro b hb
    simp only [hexPairsToBytes, List.mem_cons] at hb
    rcases hb with hb | hb
    · have h1 : (hexDigitVal c1).getD 0 < 16 := by
        cases hv : hexDigitVal c1 with
        | none => simp [hv]
        | some v => simpa [hv] using hexDigitVal_lt hv
      have h2 : (hexDigitVal c2).getD 0 < 16 := by
        cases hv : hexDigitVal c2 with
        | none => simp [hv]
        | some v => simpa [hv] using hexDigitVal_lt hv
      omega
    · exact ih b hb
  | case2 l h => cases l with
    | nil => simp [hexPairsToBytes]
    | cons c cs =>
      cases cs with
      | nil => simp [hexPairsToBytes]
      | cons c2 cs2 => exact absurd rfl (h c c2 cs2)

/-! ## Lemmas: characterizations of the codec gates -/

theorem assertHexLength_ok_iff {hex : String} {k : Nat} {f : String} :
    assertHexLength hex k f = .ok () ↔
      (isValidHex hex = true ∧ hex.length = k * 2) := by
  unfold assertHexLength
  split
  · rename_i hv
    simp only [Bool.not_eq_true'] at hv
    simp [hv]
  · rename_i hv
    simp only [Bool.not_eq_true', Bool.not_eq_false] at hv
    split
    · rename_i hl; simp [hv, hl]
    · rename_i hl; simp at hl; simp [hv, hl]

theorem fromHex_ok_iff {hex f : String} {bs : List Nat} :
    fromHex hex f = .ok bs ↔
      (isValidHex hex = true ∧ bs = hexPairsToBytes hex.data) := by
  unfold fromHex
  split
  · rename_i hv
    simp only [Bool.not_eq_true'] at hv
    simp [hv]
  · rename_i hv
    simp only [Bool.not_eq_true', Bool.not_eq_false] at hv
    simp [hv, eq_comm]

theorem fromHex_isValid {hex f : String} (hv : isValidHex hex = true) :
    fromHex hex f = .ok (hexPairsToBytes hex.data) :=
  fromHex_ok_iff.mpr ⟨hv, rfl⟩

theorem parseMasterKeyHex_ok_iff {mk : String} {bs : List Nat} :
    parseMasterKeyHex mk = .ok bs ↔
      (isValidHex mk = true ∧ mk.length = 64 ∧ bs = hexPairsToBytes mk.data) := by
  unfold parseMasterKeyHex
  cases h : assertHexLength mk KEY_BYTES "master key" with
  | error e =>
    constructor
    · intro hc; exact absurd hc (by simp)
    · intro ⟨h1, h2, _⟩
      have hok : assertHexLength mk KEY_BYTES "master key" = .ok () :=
        assertHexLength_ok_iff.mpr ⟨h1, by simp only [KEY_BYTES]; omega⟩
      rw [hok] at h
      exact absurd h (by simp)
  | ok u =>
    cases u
    obtain ⟨h1, h2⟩ := assertHexLength_ok_iff.mp h
    simp only [Except.ok.injEq]
    constructor
    · intro hb
      refine ⟨h1, ?_, hb.symm⟩
      simpa [KEY_BYTES] using h2
    · intro ⟨_, _, hb⟩; exact hb.symm

theorem parseMasterKeyHex_length {mk : String} {bs : List Nat}
    (h : parseMasterKeyHex mk = .ok bs) : bs.length = 32 := by
  obtain ⟨hv, hl, hb⟩ := parseMasterKeyHex_ok_iff.mp h
  have : mk.data.length = 64 := hl
  rw [hb, hexPairsToBytes_length, this]

/-! ## Lemmas: the modelled GCM core -/

theorem keystream_lt (key nonce : List Nat) (i : Nat) :
    keystream key nonce i < 256 :=
  Nat.mod_lt _ (by norm_num)

theorem gcmCipherFrom_length (key nonce : List Nat) (i : Nat) (bs : List Nat) :
    (gcmCipherFrom key nonce i bs).length = bs.length := by
  induction bs generalizing i with
  | nil => rfl
  | cons b bs ih => simp [gcmCipherFrom, ih]

theorem gcmCipher_length (key nonce bs : List Nat) :
    (gcmCipher key nonce bs).length = bs.length :=
  gcmCipherFrom_length key nonce 0 bs

theorem gcmCipherFrom_invol (key nonce : List Nat) (i : Nat) (bs : List Nat) :
    gcmCipherFrom key nonce i (gcmCipherFrom key nonce i bs) = bs := by
  induction bs generalizing i with
  | nil => rfl
  | cons b bs ih =>
    simp only [gcmCipherFrom, Nat.xor_cancel_right, List.cons.injEq]
    exact ⟨trivial, ih (i + 1)⟩

theorem gcmCipher_invol (key nonce bs : List Nat) :
    gcmCipher key nonce (gcmCipher key nonce bs) = bs :=
  gcmCipherFrom_invol key nonce 0 bs

theorem gcmCipherFrom_lt (key nonce : List Nat) (i : Nat) {bs : List Nat}
    (h : ∀ b ∈ bs, b < 256) :
    ∀ b ∈ gcmCipherFrom key nonce i bs, b < 256 := by
  induction bs generalizing i with
  | nil => simp [gcmCipherFrom]
  | cons b bs ih =>
    intro x hx
    simp only [gcmCipherFrom, List.mem_cons] at hx
    rcases hx with hx | hx
    · subst hx
      have h1 : b < 2 ^ 8 := h b (List.mem_cons_self b bs)
      have h2 : keystream key nonce i < 2 ^ 8 := keystream_lt key nonce i
      exact Nat.xor_lt_two_pow h1 h2
    · exact ih (i + 1) (fun y hy => h y (List.mem_cons_of_mem _ hy)) x hx

theorem gcmCipher_lt (key nonce : List Nat) {bs : List Nat}
    (h : ∀ b ∈ bs, b < 256) : ∀ b ∈ gcmCipher key nonce bs, b < 256 :=
  gcmCipherFrom_lt key nonce 0 h

theorem gcmTag_length (key nonce ct aad : List Nat) :
    (gcmTag key nonce ct aad).length = 16 := by
  simp [gcmTag]

theorem gcmTag_lt (key nonce ct aad : List Nat) :
    ∀ b ∈ gcmTag key nonce ct aad, b < 256 := by
  intro b hb
  simp only [gcmTag, List.mem_map, List.mem_range] at hb
  obtain ⟨i, _, hi⟩ := hb
  rw [← hi]
  exact Nat.mod_lt _ (by norm_num)

theorem gcmTag_ne_nil (key nonce ct aad : List Nat) :
    gcmTag key nonce ct aad ≠ [] := by
  intro h
  have := gcmTag_length key nonce ct aad
  rw [h] at this
  simp at this

/-! ## Lemmas: the payload byte serialization -/

theorem decodeNatUnary_natUnary (n : Nat) (rest : List Nat) :
    decodeNatUnary (natUnary n ++ rest) = some (n, rest) := by
  induction n with
  | zero => rfl
  | succ n ih => simp [natUnary, decodeNatUnary, ih]

theorem encodeChar_decomp (c : Char) :
    c.toNat / 65536 * 65536 + c.toNat / 256 % 256 * 256 + c.toNat % 256 =
      c.toNat := by
  have h1 := Nat.div_add_mod c.toNat 256
  have h2 := Nat.div_add_mod (c.toNat / 256) 256
  have h3 : c.toNat / 256 / 256 = c.toNat / 65536 := by
    rw [Nat.div_div_eq_div_mul]
  omega

theorem decodeCharList_encodeCharList (cs : List Char) (rest : List Nat) :
    decodeCharList (encodeCharList cs ++ rest) = some (cs, rest) := by
  induction cs with
  | nil => rfl
  | cons c cs ih =>
    simp only [encodeCharList, encodeChar, List.cons_append, List.append_assoc,
      List.nil_append]
    simp only [decodeCharList]
    rw [encodeChar_decomp c, Char.ofNat_toNat]
    simp [ih]

theorem decodeString_encodeString (s : String) (rest : List Nat) :
    decodeString (encodeString s ++ rest) = some (s, rest) := by
  unfold decodeString encodeString
  rw [decodeCharList_encodeCharList]

theorem decodeInt_encodeInt (n : Int) (rest : List Nat) :
    decodeInt (encodeInt n ++ rest) = some (n, rest) := by
  cases n with
  | ofNat m =>
    simp [encodeInt, decodeInt, decodeNatUnary_natUnary]
  | negSucc m =>
    simp [encodeInt, decodeInt, decodeNatUnary_natUnary, Int.negSucc_eq]

theorem natUnary_lt (n : Nat) : ∀ b ∈ natUnary n, b < 256 := by
  induction n with
  | zero => simp [natUnary]
  | succ n ih =>
    intro b hb
    simp only [natUnary, List.mem_cons] at hb
    rcases hb with hb | hb
    · omega
    · exact ih b hb

theorem encodeChar_lt (c : Char) : ∀ b ∈ encodeChar c, b < 256 := by
  intro b hb
  have hc : c.toNat < 1114112 := by
    have hv : c.toNat < 55296 ∨ (57343 < c.toNat ∧ c.toNat < 1114112) := c.valid
    omega
  simp only [encodeChar, List.mem_cons, List.mem_singleton] at hb
  rcases hb with hb | hb | hb | hb
  · subst hb; omega
  · subst hb; exact Nat.mod_lt _ (by norm_num)
  · subst hb; exact Nat.mod_lt _ (by norm_num)
  · exact absurd hb (List.not_mem_nil b)

theorem encodeCharList_lt (cs : List Char) :
    ∀ b ∈ encodeCharList cs, b < 256 := by
  induction cs with
  | nil => simp [encodeCharList]
  | cons c cs ih =>
    intro b hb
    simp only [encodeCharList, List.mem_cons, List.mem_append] at hb
    rcases hb with hb | hb | hb
    · omega
    · exact encodeChar_lt c b hb
    · exact ih b hb

theorem encodeString_lt (s : String) : ∀ b ∈ encodeString s, b < 256 :=
  encodeCharList_lt s.data

theorem encodeInt_lt (n : Int) : ∀ b ∈ encodeInt n, b < 256 := by
  cases n with
  | ofNat m =>
    intro b hb
    simp only [encodeInt, List.mem_cons] at hb
    rcases hb with hb | hb
    · omega
    · exact natUnary_lt m b hb
  | negSucc m =>
    intro b hb
    simp only [encodeInt, List.mem_cons] at hb
    rcases hb with hb | hb
    · omega
    · exact natUnary_lt (m + 1) b hb

mutual

theorem decodeJson_encodeJson (j : Json) :
    ∀ fuel rest, jsonFuel j ≤ fuel →
      decodeJson fuel (encodeJson j ++ rest) = some (j, rest) := by
  cases j with
  | null =>
    intro fuel rest h
    cases fuel with
    | zero => exact absurd h (by simp [jsonFuel])
    | succ f => simp [encodeJson, decodeJson]
  | bool b =>
    intro fuel rest h
    cases fuel with
    | zero => exact absurd h (by simp [jsonFuel])
    | succ f => cases b <;> simp [encodeJson, decodeJson]
  | num n =>
    intro fuel rest h
    cases fuel with
    | zero => exact absurd h (by simp [jsonFuel])
    | succ f =>
      simp [encodeJson, decodeJson, decodeInt_encodeInt]
  | str s =>
    intro fuel rest h
    cases fuel with
    | zero => exact absurd h (by simp [jsonFuel])
    | succ f =>
      simp [encodeJson, decodeJson, decodeString_encodeString]
  | arr xs =>
    intro fuel rest h
    cases fuel with
    | zero => exact absurd h (by simp [jsonFuel])
    | succ f =>
      have hf : itemsFuel xs ≤ f := by
        simp only [jsonFuel] at h; omega
      simp only [encodeJson, List.cons_append, decodeJson,
        decodeItems_encodeItems xs f rest hf]
  | obj fs =>
    intro fuel rest h
    cases fuel with
    | zero => exact absurd h (by simp [jsonFuel])
    | succ f =>
      have hf : fieldsFuel fs ≤ f := by
        simp only [jsonFuel] at h; omega
      simp only [encodeJson, List.cons_append, decodeJson,
        decodeFieldList_encodeFieldList fs f rest hf]

theorem decodeItems_encodeItems (xs : JsonList) :
    ∀ fuel rest, itemsFuel xs ≤ fuel →
      decodeItems fuel (encodeItems xs ++ rest) = some (xs, rest) := by
  cases xs with
  | nil =>
    intro fuel rest h
    cases fuel with
    | zero => exact absurd h (by simp [itemsFuel])
    | succ f => simp [encodeItems, decodeItems]
  | cons x xs =>
    intro fuel rest h
    cases fuel with
    | zero => exact absurd h (by simp [itemsFuel])
    | succ f =>
      have hx : jsonFuel x ≤ f := by
        simp only [itemsFuel] at h; omega
      have hxs : itemsFuel xs ≤ f := by
        simp only [itemsFuel] at h; omega
      simp only [encodeItems, List.cons_append, List.append_eq,
        List.append_assoc, decodeItems,
        decodeJson_encodeJson x f (encodeItems xs ++ rest) hx,
        decodeItems_encodeItems xs f rest hxs]

theorem decodeFieldList_encodeFieldList (fs : JsonFields) :
    ∀ fuel rest, fieldsFuel fs ≤ fuel →
      decodeFieldList fuel (encodeFieldList fs ++ rest) = some (fs, rest) := by
  cases fs with
  | fnil =>
    intro fuel rest h
    cases fuel with
    | zero => exact absurd h (by simp [fieldsFuel])
    | succ f => simp [encodeFieldList, decodeFieldList]
  | fcons k v fs =>
    intro fuel rest h
    cases fuel with
    | zero => exact absurd h (by simp [fieldsFuel])
    | succ f =>
      have hv : jsonFuel v ≤ f := by
        simp only [fieldsFuel] at h; omega
      have hfs : fieldsFuel fs ≤ f := by
        simp only [fieldsFuel] at h; omega
      simp only [encodeFieldList, List.cons_append, List.append_eq,
        List.append_assoc, decodeFieldList,
        decodeString_encodeString k (encodeJson v ++ (encodeFieldList fs ++ rest)),
        decodeJson_encodeJson v f (encodeFieldList fs ++ rest) hv,
        decodeFieldList_encodeFieldList fs f rest hfs]

end

mutual

theorem jsonFuel_le_encode (j : Json) : jsonFuel j ≤ (encodeJson j).length := by
  cases j with
  | null => simp [jsonFuel, encodeJson]
  | bool b => cases b <;> simp [jsonFuel, encodeJson]
  | num n => simp [jsonFuel, encodeJson]
  | str s => simp [jsonFuel, encodeJson]
  | arr xs =>
    have := itemsFuel_le_encode xs
    simp only [jsonFuel, encodeJson, List.length_cons]
    omega
  | obj fs =>
    have := fieldsFuel_le_encode fs
    simp only [jsonFuel, encodeJson, List.length_cons]
    omega

theorem itemsFuel_le_encode (xs : JsonList) :
    itemsFuel xs ≤ (encodeItems xs).length := by
  cases xs with
  | nil => simp [itemsFuel, encodeItems]
  | cons x xs =>
    have h1 := jsonFuel_le_encode x
    have h2 := itemsFuel_le_encode xs
    simp only [itemsFuel, encodeItems, List.length_cons, List.length_append]
    omega

theorem fieldsFuel_le_encode (fs : JsonFields) :
    fieldsFuel fs ≤ (encodeFieldList fs).length := by
  cases fs with
  | fnil => simp [fieldsFuel, encodeFieldList]
  | fcons k v fs =>
    have h1 := jsonFuel_le_encode v
    have h2 := fieldsFuel_le_encode fs
    simp only [fieldsFuel, encodeFieldList, List.length_cons, List.length_append]
    omega

end

mutual

theorem encodeJson_lt (j : Json) : ∀ b ∈ encodeJson j, b < 256 := by
  cases j with
  | null => simp [encodeJson]
  | bool b => cases b <;> simp [encodeJson]
  | num n =>
    intro b hb
    simp only [encodeJson, List.mem_cons] at hb
    rcases hb with hb | hb
    · omega
    · exact encodeInt_lt n b hb
  | str s =>
    intro b hb
    simp only [encodeJson, List.mem_cons] at hb
    rcases hb with hb | hb
    · omega
    · exact encodeString_lt s b hb
  | arr xs =>
    intro b hb
    simp only [encodeJson, List.mem_cons] at hb
    rcases hb with hb | hb
    · omega
    · exact encodeItems_lt xs b hb
  | obj fs =>
    intro b hb
    simp only [encodeJson, List.mem_cons] at hb
    rcases hb with hb | hb
    · omega
    · exact encodeFieldList_lt fs b hb

theorem encodeItems_lt (xs : JsonList) : ∀ b ∈ encodeItems xs, b < 256 := by
  cases xs with
  | nil => simp [encodeItems]
  | cons x xs =>
    intro b hb
    simp only [encodeItems, List.mem_cons, List.mem_append] at hb
    rcases hb with hb | hb | hb
    · omega
    · exact encodeJson_lt x b hb
    · exact encodeItems_lt xs b hb

theorem encodeFieldList_lt (fs : JsonFields) :
    ∀ b ∈ encodeFieldList fs, b < 256 := by
  cases fs with
  | fnil => simp [encodeFieldList]
  | fcons k v fs =>
    intro b hb
    simp only [encodeFieldList, List.mem_cons, List.mem_append] at hb
    rcases hb with hb | hb | hb | hb
    · omega
    · exact encodeString_lt k b hb
    · exact encodeJson_lt v b hb
    · exact encodeFieldList_lt fs b hb

end

theorem encodeJson_ne_nil (j : Json) : encodeJson j ≠ [] := by
  cases j with
  | null => simp [encodeJson]
  | bool b => cases b <;> simp [encodeJson]
  | num n => simp [encodeJson]
  | str s => simp [encodeJson]
  | arr xs => simp [encodeJson]
  | obj fs => simp [encodeJson]

theorem deserializePayload_encodeJson (j : Json) :
    deserializePayload (encodeJson j) = some j := by
  unfold deserializePayload
  have h := decodeJson_encodeJson j ((encodeJson j).length + 1) []
    (by have := jsonFuel_le_encode j; omega)
  rw [List.append_nil] at h
  rw [h]

theorem encodeJson_inj {a b : Json} (h : encodeJson a = encodeJson b) :
    a = b := by
  have ha := deserializePayload_encodeJson a
  rw [h, deserializePayload_encodeJson b] at ha
  exact (Option.some.injEq _ _ ▸ ha).symm

theorem aadBytes_inj {i1 p1 c1 a1 i2 p2 c2 a2 : String} {v1 v2 : Int}
    (h : aadBytes i1 p1 c1 a1 v1 = aadBytes i2 p2 c2 a2 v2) :
    i1 = i2 ∧ p1 = p2 ∧ c1 = c2 ∧ a1 = a2 ∧ v1 = v2 := by
  have := encodeJson_inj h
  simp only [aadJson, Json.obj.injEq, JsonFields.fcons.injEq, Json.str.injEq,
    Json.num.injEq] at this
  tauto

/-! ## Lemmas: the validator and the two entry points -/

theorem string_length_data (s : String) : s.data.length = s.length := by
  cases s; rfl

/-- Everything `validateRecordShape` checks, as an iff. -/
theorem validateRecordShape_ok_iff {r : TxSecureRecord} :
    validateRecordShape r = .ok () ↔
      (r.id ≠ "" ∧ r.partyId ≠ "" ∧ r.createdAt ≠ "" ∧
       dateParseOk r.createdAt = true ∧ r.alg = "AES-256-GCM" ∧
       r.mk_version = 1 ∧
       isValidHex r.payload_nonce = true ∧ r.payload_nonce.length = 24 ∧
       isValidHex r.payload_tag = true ∧ r.payload_tag.length = 32 ∧
       isValidHex r.dek_wrap_nonce = true ∧ r.dek_wrap_nonce.length = 24 ∧
       isValidHex r.dek_wrap_tag = true ∧ r.dek_wrap_tag.length = 32 ∧
       isValidHex r.payload_ct = true ∧ isValidHex r.dek_wrapped = true) := by
  constructor
  · intro h
    unfold validateRecordShape at h
    split_ifs at h with h1 h2 h3 h4 h5 h6
    cases hpn : assertHexLength r.payload_nonce NONCE_BYTES "payload_nonce" with
    | error e =>
      rw [hpn] at h
      exact absurd h (by simp)
    | ok u =>
      cases u
      simp only [hpn] at h
      cases hpt : assertHexLength r.payload_tag TAG_BYTES "payload_tag" with
      | error e =>
      rw [hpt] at h
      exact absurd h (by simp)
      | ok u =>
        cases u
        simp only [hpt] at h
        cases hwn : assertHexLength r.dek_wrap_nonce NONCE_BYTES
          "dek_wrap_nonce" with
        | error e =>
      rw [hwn] at h
      exact absurd h (by simp)
        | ok u =>
          cases u
          simp only [hwn] at h
          cases hwt : assertHexLength r.dek_wrap_tag TAG_BYTES
            "dek_wrap_tag" with
          | error e =>
      rw [hwt] at h
      exact absurd h (by simp)
          | ok u =>
            cases u
            simp only [hwt] at h
            cases hct : fromHex r.payload_ct "payload_ct" with
            | error e =>
      rw [hct] at h
      exact absurd h (by simp)
            | ok bs =>
              simp only [hct] at h
              cases hdw : fromHex r.dek_wrapped "dek_wrapped" with
              | error e =>
      rw [hdw] at h
      exact absurd h (by simp)
              | ok bs2 =>
                obtain ⟨q1, q2⟩ := assertHexLength_ok_iff.mp hpn
                obtain ⟨q3, q4⟩ := assertHexLength_ok_iff.mp hpt
                obtain ⟨q5, q6⟩ := assertHexLength_ok_iff.mp hwn
                obtain ⟨q7, q8⟩ := assertHexLength_ok_iff.mp hwt
                obtain ⟨q9, -⟩ := fromHex_ok_iff.mp hct
                obtain ⟨q10, -⟩ := fromHex_ok_iff.mp hdw
                rw [Bool.not_eq_true'] at h4
                refine ⟨h1, h2, h3, by simpa using h4, not_not.mp h5, by omega,
                  q1, by simpa [NONCE_BYTES] using q2,
                  q3, by simpa [TAG_BYTES] using q4,
                  q5, by simpa [NONCE_BYTES] using q6,
                  q7, by simpa [TAG_BYTES] using q8, q9, q10⟩
  · intro ⟨h1, h2, h3, h4, h5, h6, q1, q2, q3, q4, q5, q6, q7, q8, q9, q10⟩
    unfold validateRecordShape
    rw [if_neg h1, if_neg h2, if_neg h3, if_neg (by simp [h4]),
      if_neg (by simp [h5]), if_neg (by simp [h6]),
      assertHexLength_ok_iff.mpr ⟨q1, by simp [NONCE_BYTES]; omega⟩,
      assertHexLength_ok_iff.mpr ⟨q3, by simp [TAG_BYTES]; omega⟩,
      assertHexLength_ok_iff.mpr ⟨q5, by simp [NONCE_BYTES]; omega⟩,
      assertHexLength_ok_iff.mpr ⟨q7, by simp [TAG_BYTES]; omega⟩,
      fromHex_isValid q9, fromHex_isValid q10]

/-- A validation error propagates out of `decryptTransaction` untouched,
whatever the key. -/
theorem decrypt_validation_error {r : TxSecureRecord} {mk e : String}
    (h : validateRecordShape r = .error e) :
    decryptTransaction r mk = .error e := by
  unfold decryptTransaction
  simp only [h]

/-- A master-key parse error propagates out of `decryptTransaction` when
validation passed. -/
theorem decrypt_keyparse_error {r : TxSecureRecord} {mk e : String}
    (hval : validateRecordShape r = .ok ())
    (h : parseMasterKeyHex mk = .error e) :
    decryptTransaction r mk = .error e := by
  unfold decryptTransaction
  simp only [hval, h]

/-- No well-formed timestamp is the empty string. -/
theorem dateParseOk_ne_empty {s : String} (h : dateParseOk s = true) :
    s ≠ "" := by
  intro h0
  subst h0
  exact absurd h (by decide)

/-- Inversion of a successful `encryptTransaction` call: what the input
must have satisfied and the exact record produced. -/
theorem encryptTransaction_ok_inv {partyId mkHex : String} {payload : JsValue}
    {rnd : EncRandomness} {rec : TxSecureRecord}
    (h : encryptTransaction partyId payload mkHex rnd = .ok rec) :
    partyId ≠ "" ∧ ∃ mkB pb,
      parseMasterKeyHex mkHex = .ok mkB ∧ serializePayload payload = some pb ∧
      rnd.dek.length = KEY_BYTES ∧ mkB.length = KEY_BYTES ∧
      rec = { id := rnd.id, partyId := partyId, createdAt := rnd.createdAt,
              payload_nonce := toHex rnd.payloadNonce,
              payload_ct := toHex (gcmCipher rnd.dek rnd.payloadNonce pb),
              payload_tag := toHex (gcmTag rnd.dek rnd.payloadNonce
                (gcmCipher rnd.dek rnd.payloadNonce pb)
                (aadBytes rnd.id partyId rnd.createdAt "AES-256-GCM" 1)),
              dek_wrap_nonce := toHex rnd.wrapNonce,
              dek_wrapped := toHex (gcmCipher mkB rnd.wrapNonce rnd.dek),
              dek_wrap_tag := toHex (gcmTag mkB rnd.wrapNonce
                (gcmCipher mkB rnd.wrapNonce rnd.dek)
                (aadBytes rnd.id partyId rnd.createdAt "AES-256-GCM" 1)),
              alg := "AES-256-GCM", mk_version := 1 } := by
  unfold encryptTransaction at h
  split at h
  · exact absurd h (by simp)
  · rename_i hpid
    cases hmk : parseMasterKeyHex mkHex with
    | error e =>
      rw [hmk] at h
      exact absurd h (by simp)
    | ok mkB =>
      simp only [hmk] at h
      cases hser : serializePayload payload with
      | none =>
        rw [hser] at h
        exact absurd h (by simp)
      | some pb =>
        simp only [hser] at h
        unfold aesGcmEncrypt at h
        have hmkl : mkB.length = KEY_BYTES := parseMasterKeyHex_length hmk
        rw [if_neg (by simp [hmkl] : ¬mkB.length ≠ KEY_BYTES)] at h
        by_cases hdek : rnd.dek.length = KEY_BYTES
        · rw [if_neg (by simp [hdek] : ¬rnd.dek.length ≠ KEY_BYTES)] at h
          simp only [Except.ok.injEq] at h
          exact ⟨hpid, mkB, pb, rfl, rfl, hdek, hmkl, h.symm⟩
        · rw [if_pos hdek] at h
          exact absurd h (by simp)

/-- After the structural gate and a successful master-key parse, every
failing `decryptTransaction` call carries the one opaque message
`"decryption failed"`: the AEAD length guards are unreachable and every
cryptographic or deserialization failure is uniform. -/
theorem decrypt_error_opaque {r : TxSecureRecord} {mk : String}
    {mkB : List Nat} (hval : validateRecordShape r = .ok ())
    (hparse : parseMasterKeyHex mk = .ok mkB) :
    ∀ e, decryptTransaction r mk = .error e → e = "decryption failed" := by
  obtain ⟨h1, h2, h3, h4, h5, h6, q1, q2, q3, q4, q5, q6, q7, q8, q9, q10⟩ :=
    validateRecordShape_ok_iff.mp hval
  have hmkl : mkB.length = 32 := parseMasterKeyHex_length hparse
  have hwnl : (hexPairsToBytes r.dek_wrap_nonce.data).length = 12 := by
    rw [hexPairsToBytes_length, string_length_data, q6]
  have hwtl : (hexPairsToBytes r.dek_wrap_tag.data).length = 16 := by
    rw [hexPairsToBytes_length, string_length_data, q8]
  have hpnl : (hexPairsToBytes r.payload_nonce.data).length = 12 := by
    rw [hexPairsToBytes_length, string_length_data, q2]
  have hptl : (hexPairsToBytes r.payload_tag.data).length = 16 := by
    rw [hexPairsToBytes_length, string_length_data, q4]
  intro e herr
  unfold decryptTransaction at herr
  simp only [hval, hparse, fromHex_isValid q5, fromHex_isValid q7,
    fromHex_isValid q10, fromHex_isValid q1, fromHex_isValid q3,
    fromHex_isValid q9] at herr
  unfold aesGcmDecrypt at herr
  rw [if_neg (by simp [hmkl, KEY_BYTES] : ¬mkB.length ≠ KEY_BYTES),
    if_neg (by simp [hwnl, NONCE_BYTES] :
      ¬(hexPairsToBytes r.dek_wrap_nonce.data).length ≠ NONCE_BYTES),
    if_neg (by simp [hwtl, TAG_BYTES] :
      ¬(hexPairsToBytes r.dek_wrap_tag.data).length ≠ TAG_BYTES)]
    at herr
  by_cases htag1 : gcmTag mkB (hexPairsToBytes r.dek_wrap_nonce.data)
      (hexPairsToBytes r.dek_wrapped.data)
      (aadBytes r.id r.partyId r.createdAt r.alg r.mk_version) =
      hexPairsToBytes r.dek_wrap_tag.data
  · -- wrap-layer tag matched: a DEK was recovered
    simp only [if_pos htag1] at herr
    by_cases hdekl : (gcmCipher mkB (hexPairsToBytes r.dek_wrap_nonce.data)
        (hexPairsToBytes r.dek_wrapped.data)).length = KEY_BYTES
    · simp only [if_neg (by simp [hdekl] : ¬(gcmCipher mkB
          (hexPairsToBytes r.dek_wrap_nonce.data)
          (hexPairsToBytes r.dek_wrapped.data)).length ≠ KEY_BYTES),
        if_neg (by simp [hpnl, NONCE_BYTES] :
          ¬(hexPairsToBytes r.payload_nonce.data).length ≠ NONCE_BYTES),
        if_neg (by simp [hptl, TAG_BYTES] :
          ¬(hexPairsToBytes r.payload_tag.data).length ≠ TAG_BYTES)] at herr
      by_cases htag2 : gcmTag (gcmCipher mkB
          (hexPairsToBytes r.dek_wrap_nonce.data)
          (hexPairsToBytes r.dek_wrapped.data))
          (hexPairsToBytes r.payload_nonce.data)
          (hexPairsToBytes r.payload_ct.data)
          (aadBytes r.id r.partyId r.createdAt r.alg r.mk_version) =
          hexPairsToBytes r.payload_tag.data
      · -- payload-layer tag matched: plaintext recovered
        simp only [if_pos htag2] at herr
        cases hdes : deserializePayload (gcmCipher (gcmCipher mkB
            (hexPairsToBytes r.dek_wrap_nonce.data)
            (hexPairsToBytes r.dek_wrapped.data))
            (hexPairsToBytes r.payload_nonce.data)
            (hexPairsToBytes r.payload_ct.data)) with
        | some v =>
          simp only [hdes] at herr
          exact absurd herr (by simp)
        | none =>
          simp only [hdes, Except.error.injEq] at herr
          exact herr.symm
      · -- payload-layer authentication failure
        simp only [if_neg htag2, Except.error.injEq] at herr
        exact herr.symm
    · -- recovered DEK of wrong length: the defensive check fires
      simp only [if_pos (by simpa using hdekl : (gcmCipher mkB
          (hexPairsToBytes r.dek_wrap_nonce.data)
          (hexPairsToBytes r.dek_wrapped.data)).length ≠ KEY_BYTES),
        Except.error.injEq] at herr
      exact herr.symm
  · -- wrap-layer authentication failure
    simp only [if_neg htag1, Except.error.injEq] at herr
    exact herr.symm


/-- Round-trip core: a record produced by `encryptTransaction` under
well-formed randomness decrypts, with the same master key, back to the
original payload. -/
theorem decrypt_encrypt_roundtrip {partyId mkHex : String} {j : Json}
    {rnd : EncRandomness} {rec : TxSecureRecord}
    (hn1 : rnd.payloadNonce.length = NONCE_BYTES)
    (hb1 : ∀ b ∈ rnd.payloadNonce, b < 256)
    (hn2 : rnd.wrapNonce.length = NONCE_BYTES)
    (hb2 : ∀ b ∈ rnd.wrapNonce, b < 256)
    (hbd : ∀ b ∈ rnd.dek, b < 256)
    (hid : rnd.id ≠ "")
    (hdate : dateParseOk rnd.createdAt = true)
    (henc : encryptTransaction partyId (.json j) mkHex rnd = .ok rec) :
    decryptTransaction rec mkHex = .ok j := by
  obtain ⟨hpid, mkB, pb, hmk, hser, hdekl, hmkl, hrec⟩ :=
    encryptTransaction_ok_inv henc
  have hpb : encodeJson j = pb := by
    simpa [serializePayload] using hser
  subst hpb
  subst hrec
  have hpn_ne : rnd.payloadNonce ≠ [] := by
    intro h0; rw [h0] at hn1; simp [NONCE_BYTES] at hn1
  have hwn_ne : rnd.wrapNonce ≠ [] := by
    intro h0; rw [h0] at hn2; simp [NONCE_BYTES] at hn2
  have hct_lt : ∀ b ∈ gcmCipher rnd.dek rnd.payloadNonce (encodeJson j),
      b < 256 := gcmCipher_lt _ _ (encodeJson_lt j)
  have hct_ne : gcmCipher rnd.dek rnd.payloadNonce (encodeJson j) ≠ [] := by
    intro h0
    have hcl := gcmCipher_length rnd.dek rnd.payloadNonce (encodeJson j)
    rw [h0] at hcl
    exact encodeJson_ne_nil j (List.length_eq_zero.mp hcl.symm)
  have hwct_lt : ∀ b ∈ gcmCipher mkB rnd.wrapNonce rnd.dek, b < 256 :=
    gcmCipher_lt _ _ hbd
  have hwct_ne : gcmCipher mkB rnd.wrapNonce rnd.dek ≠ [] := by
    intro h0
    have hcl := gcmCipher_length mkB rnd.wrapNonce rnd.dek
    rw [h0, hdekl] at hcl
    simp [KEY_BYTES] at hcl
  have hval : validateRecordShape
      { id := rnd.id, partyId := partyId, createdAt := rnd.createdAt,
        payload_nonce := toHex rnd.payloadNonce,
        payload_ct := toHex (gcmCipher rnd.dek rnd.payloadNonce (encodeJson j)),
        payload_tag := toHex (gcmTag rnd.dek rnd.payloadNonce
          (gcmCipher rnd.dek rnd.payloadNonce (encodeJson j))
          (aadBytes rnd.id partyId rnd.createdAt "AES-256-GCM" 1)),
        dek_wrap_nonce := toHex rnd.wrapNonce,
        dek_wrapped := toHex (gcmCipher mkB rnd.wrapNonce rnd.dek),
        dek_wrap_tag := toHex (gcmTag mkB rnd.wrapNonce
          (gcmCipher mkB rnd.wrapNonce rnd.dek)
          (aadBytes rnd.id partyId rnd.createdAt "AES-256-GCM" 1)),
        alg := "AES-256-GCM", mk_version := 1 } = .ok () :=
    validateRecordShape_ok_iff.mpr
      ⟨hid, hpid, dateParseOk_ne_empty hdate, hdate, rfl, rfl,
       isValidHex_toHex hpn_ne hb1,
       by simp [toHex_length, hn1, NONCE_BYTES],
       isValidHex_toHex (gcmTag_ne_nil _ _ _ _) (gcmTag_lt _ _ _ _),
       by simp [toHex_length, gcmTag_length],
       isValidHex_toHex hwn_ne hb2,
       by simp [toHex_length, hn2, NONCE_BYTES],
       isValidHex_toHex (gcmTag_ne_nil _ _ _ _) (gcmTag_lt _ _ _ _),
       by simp [toHex_length, gcmTag_length],
       isValidHex_toHex hct_ne hct_lt,
       isValidHex_toHex hwct_ne hwct_lt⟩
  unfold decryptTransaction
  simp only [hval, hmk,
    fromHex_toHex "dek_wrap_nonce" hwn_ne hb2,
    fromHex_toHex "dek_wrapped" hwct_ne hwct_lt,
    fromHex_toHex "dek_wrap_tag" (gcmTag_ne_nil _ _ _ _) (gcmTag_lt _ _ _ _),
    fromHex_toHex "payload_nonce" hpn_ne hb1,
    fromHex_toHex "payload_ct" hct_ne hct_lt,
    fromHex_toHex "payload_tag" (gcmTag_ne_nil _ _ _ _) (gcmTag_lt _ _ _ _)]
  simp [aesGcmDecrypt, hmkl, hn1, hn2, hdekl, gcmTag_length,
    gcmCipher_invol, gcmCipher_length, deserializePayload_encodeJson,
    NONCE_BYTES, TAG_BYTES, KEY_BYTES]


/-! ## The claims -/

/-- C1: for every serializable payload `P`, non-empty `partyId` and valid
64-hex-character master key `K`, `decryptTransaction` applied to the
record returned by `encryptTransaction(partyId, P, K)` with the same key
succeeds and returns a value equal to `P`.  (The well-formedness of the
drawn randomness — byte ranges, 12-byte nonces, a non-empty UUID and an
ISO timestamp — is guaranteed by `randomBytes`/`randomUUID`/
`toISOString` and appears here as explicit hypotheses on the sampled
values.) -/
theorem claim_C1_roundtrip (partyId mkHex : String) (j : Json)
    (rnd : EncRandomness)
    (hpid : partyId ≠ "")
    (hkey : isValidHex mkHex = true) (hklen : mkHex.length = 64)
    (hdek : rnd.dek.length = 32) (hdekb : ∀ b ∈ rnd.dek, b < 256)
    (hn1 : rnd.payloadNonce.length = 12) (hb1 : ∀ b ∈ rnd.payloadNonce, b < 256)
    (hn2 : rnd.wrapNonce.length = 12) (hb2 : ∀ b ∈ rnd.wrapNonce, b < 256)
    (hid : rnd.id ≠ "") (hdate : dateParseOk rnd.createdAt = true) :
    ∃ rec, encryptTransaction partyId (.json j) mkHex rnd = .ok rec ∧
      decryptTransaction rec mkHex = .ok j := by
  have hmk : parseMasterKeyHex mkHex = .ok (hexPairsToBytes mkHex.data) :=
    parseMasterKeyHex_ok_iff.mpr ⟨hkey, hklen, rfl⟩
  have hmkl : (hexPairsToBytes mkHex.data).length = 32 :=
    parseMasterKeyHex_length hmk
  obtain ⟨rec, henc⟩ :
      ∃ rec, encryptTransaction partyId (.json j) mkHex rnd = .ok rec := by
    apply Exists.intro
      { id := rnd.id, partyId := partyId, createdAt := rnd.createdAt,
        payload_nonce := toHex rnd.payloadNonce,
        payload_ct := toHex (gcmCipher rnd.dek rnd.payloadNonce (encodeJson j)),
        payload_tag := toHex (gcmTag rnd.dek rnd.payloadNonce
          (gcmCipher rnd.dek rnd.payloadNonce (encodeJson j))
          (aadBytes rnd.id partyId rnd.createdAt "AES-256-GCM" 1)),
        dek_wrap_nonce := toHex rnd.wrapNonce,
        dek_wrapped := toHex (gcmCipher (hexPairsToBytes mkHex.data)
          rnd.wrapNonce rnd.dek),
        dek_wrap_tag := toHex (gcmTag (hexPairsToBytes mkHex.data) rnd.wrapNonce
          (gcmCipher (hexPairsToBytes mkHex.data) rnd.wrapNonce rnd.dek)
          (aadBytes rnd.id partyId rnd.createdAt "AES-256-GCM" 1)),
        alg := "AES-256-GCM", mk_version := 1 }
    unfold encryptTransaction aesGcmEncrypt
    rw [if_neg hpid]
    simp only [hmk, serializePayload]
    rw [if_neg (by simp [hdek, KEY_BYTES] : ¬rnd.dek.length ≠ KEY_BYTES),
      if_neg (by simp [hmkl, KEY_BYTES] :
        ¬(hexPairsToBytes mkHex.data).length ≠ KEY_BYTES)]
  exact ⟨rec, henc,
    decrypt_encrypt_roundtrip hn1 hb1 hn2 hb2 hdekb hid hdate henc⟩

theorem claim_C1_witness :
    encryptTransaction "party_123" (.json .null) mkHex0 rnd0 = .ok rec0 ∧
    decryptTransaction rec0 mkHex0 = .ok .null := by
  obtain ⟨rec, h1, h2⟩ := claim_C1_roundtrip "party_123" mkHex0 .null rnd0
    (by decide) (by decide) (by decide) (by decide) (by decide) (by decide)
    (by decide) (by decide) (by decide) (by decide) (by decide)
  have he : encryptTransaction "party_123" (.json .null) mkHex0 rnd0 =
      .ok rec0 := by decide
  rw [he] at h1
  have hr : rec0 = rec := by injection h1
  rw [← hr] at h2
  exact ⟨he, h2⟩

/-- C3: once the structural gate and the master-key parse have passed,
every failure of `decryptTransaction` — either AEAD layer, the defensive
DEK-length check, or deserialization — carries the single
undifferentiated message `"decryption failed"`. -/
theorem claim_C3_opaque_failure (rec : TxSecureRecord) (mkHex : String)
    (mkB : List Nat) (e : String)
    (hval : validateRecordShape rec = .ok ())
    (hmk : parseMasterKeyHex mkHex = .ok mkB)
    (herr : decryptTransaction rec mkHex = .error e) :
    e = "decryption failed" :=
  decrypt_error_opaque hval hmk e herr

theorem claim_C3_witness :
    validateRecordShape rec0ct = .ok () ∧
    parseMasterKeyHex mkHex0 = .ok mkB0 ∧
    decryptTransaction rec0ct mkHex0 = .error "decryption failed" := by
  have h1 : validateRecordShape rec0ct = .ok () := by decide
  have h2 : parseMasterKeyHex mkHex0 = .ok mkB0 := by decide
  have h3 : decryptTransaction rec0ct mkHex0 = .error "decryption failed" := by
    decide
  have _h4 := claim_C3_opaque_failure rec0ct mkHex0 mkB0 "decryption failed"
    h1 h2 h3
  exact ⟨h1, h2, h3⟩

/-- C4: `decryptTransaction` runs the structural validator before the
master key is even parsed and before any AEAD call: a validation error
propagates out unchanged whatever `masterKeyHex` contains, and in
particular a 1-byte `payload_nonce` (on a record passing the earlier
checks) yields the field-named message `"payload_nonce: invalid length"`
for every master key, valid or not. -/
theorem claim_C4_validator_first :
    (∀ (rec : TxSecureRecord) (mkHex e : String),
      validateRecordShape rec = .error e →
      decryptTransaction rec mkHex = .error e) ∧
    (∀ (rec : TxSecureRecord) (mkHex : String),
      rec.id ≠ "" → rec.partyId ≠ "" → rec.createdAt ≠ "" →
      dateParseOk rec.createdAt = true → rec.alg = "AES-256-GCM" →
      rec.mk_version = 1 → isValidHex rec.payload_nonce = true →
      rec.payload_nonce.length = 2 →
      decryptTransaction rec mkHex = .error "payload_nonce: invalid length") := by
  constructor
  · intro rec mkHex e h
    exact decrypt_validation_error h
  · intro rec mkHex h1 h2 h3 h4 h5 h6 hv hl
    apply decrypt_validation_error
    unfold validateRecordShape
    rw [if_neg h1, if_neg h2, if_neg h3, if_neg (by simp [h4]),
      if_neg (by simp [h5]), if_neg (by simp [h6])]
    have hassert : assertHexLength rec.payload_nonce NONCE_BYTES
        "payload_nonce" = .error "payload_nonce: invalid length" := by
      unfold assertHexLength
      rw [if_neg (by simp [hv]), if_pos (by simp [hl, NONCE_BYTES])]
      decide
    simp only [hassert]

theorem claim_C4_witness :
    decryptTransaction rec0nonce "zz" =
      .error "payload_nonce: invalid length" ∧
    decryptTransaction rec0nonce mkHex0 =
      .error "payload_nonce: invalid length" := by
  refine ⟨claim_C4_validator_first.1 rec0nonce "zz"
    "payload_nonce: invalid length" (by decide), ?_⟩
  exact claim_C4_validator_first.2 rec0nonce mkHex0 (by decide) (by decide)
    (by decide) (by decide) (by decide) (by decide) (by decide) (by decide)

/-- C5 (counterexample): the claim "any string of even length consisting
only of hex characters — including the empty string — decodes
successfully" fails on the code: the empty string has even length and no
non-hex character, yet `fromHex` rejects it, because the validation
regex `/^[0-9a-fA-F]+$/` requires at least one character. -/
theorem claim_C5_counterexample :
    "".length % 2 = 0 ∧ ("".data.all isHexChar) = true ∧
    isValidHex "" = false ∧
    fromHex "" "payload_ct" = .error "payload_ct: invalid hex" := by
  decide

/-- C5 (amended): `fromHex` succeeds exactly on the non-empty strings of
even length consisting only of characters in `[0-9a-fA-F]`; on every
other string — odd length, a non-hex character, or empty — it fails with
the field-named invalid-hex error. -/
theorem claim_C5_hex_decoding (s f : String) :
    (∃ bs, fromHex s f = .ok bs) ↔
      (s ≠ "" ∧ s.length % 2 = 0 ∧ s.data.all isHexChar = true) := by
  unfold fromHex
  split
  · rename_i hv
    simp only [Bool.not_eq_true'] at hv
    constructor
    · intro ⟨bs, hbs⟩
      exact absurd hbs (by simp)
    · intro ⟨h1, h2, h3⟩
      exfalso
      have hemp : s.isEmpty = false := by
        rw [Bool.eq_false_iff]
        intro habs
        exact h1 ((String.isEmpty_iff s).mp habs)
      unfold isValidHex hexRegexTest at hv
      rw [h3, hemp] at hv
      simp [h2] at hv
  · rename_i hv
    simp only [Bool.not_eq_true', Bool.not_eq_false] at hv
    unfold isValidHex hexRegexTest at hv
    simp only [Bool.and_eq_true, beq_iff_eq, Bool.not_eq_true',
      String.isEmpty_iff] at hv
    constructor
    · intro _
      refine ⟨?_, hv.1, hv.2.2⟩
      intro h0
      rw [h0] at hv
      exact absurd hv.2.1 (by decide)
    · intro _
      exact ⟨hexPairsToBytes s.data, by simp⟩

/-- C6: `encryptTransaction` checks its inputs in the documented order:
an empty `partyId` is rejected first (before the master key is looked
at), an invalid master key is rejected next (before the payload is
serialized, hence for every payload), and only then is a payload with no
JSON serialization rejected. -/
theorem claim_C6_encrypt_check_order :
    (∀ (payload : JsValue) (mkHex : String) (rnd : EncRandomness),
      encryptTransaction "" payload mkHex rnd = .error "partyId is required") ∧
    (∀ (partyId mkHex e : String) (payload : JsValue) (rnd : EncRandomness),
      partyId ≠ "" →
      assertHexLength mkHex KEY_BYTES "master key" = .error e →
      encryptTransaction partyId payload mkHex rnd = .error e) ∧
    (∀ (partyId mkHex : String) (mkB : List Nat) (rnd : EncRandomness),
      partyId ≠ "" → parseMasterKeyHex mkHex = .ok mkB →
      encryptTransaction partyId .notSerializable mkHex rnd =
        .error "payload is not JSON-serializable") := by
  refine ⟨?_, ?_, ?_⟩
  · intro payload mkHex rnd
    unfold encryptTransaction
    rw [if_pos rfl]
  · intro partyId mkHex e payload rnd hpid hassert
    unfold encryptTransaction parseMasterKeyHex
    rw [if_neg hpid]
    simp only [hassert]
  · intro partyId mkHex mkB rnd hpid hmk
    unfold encryptTransaction
    rw [if_neg hpid]
    simp only [hmk, serializePayload]

theorem claim_C6_witness :
    encryptTransaction "" (.json .null) "zz" rnd0 =
      .error "partyId is required" ∧
    encryptTransaction "party_123" (.json .null) "zz" rnd0 =
      .error "master key: invalid hex" ∧
    encryptTransaction "party_123" .notSerializable mkHex0 rnd0 =
      .error "payload is not JSON-serializable" :=
  ⟨claim_C6_encrypt_check_order.1 (.json .null) "zz" rnd0,
   claim_C6_encrypt_check_order.2.1 "party_123" "zz"
     "master key: invalid hex" (.json .null) rnd0 (by decide) (by decide),
   claim_C6_encrypt_check_order.2.2 "party_123" mkHex0 mkB0 rnd0
     (by decide) (by decide)⟩


/-! ## Lemmas: lowercase hex output (for C7) -/

theorem isLowerHexChar_hexDigitChar {n : Nat} (h : n < 16) :
    isLowerHexChar (hexDigitChar n) = true := by
  interval_cases n <;> decide

theorem bytesToHexChars_all_lower {bs : List Nat} (h : ∀ b ∈ bs, b < 256) :
    (bytesToHexChars bs).all isLowerHexChar = true := by
  induction bs with
  | nil => rfl
  | cons b bs ih =>
    have hb : b < 256 := h b (List.mem_cons_self b bs)
    simp only [bytesToHexChars, List.all_cons, Bool.and_eq_true]
    exact ⟨isLowerHexChar_hexDigitChar (by omega),
      isLowerHexChar_hexDigitChar (Nat.mod_lt _ (by norm_num)),
      ih (fun x hx => h x (List.mem_cons_of_mem _ hx))⟩

/-- C2: altering any of the cleartext metadata fields (`id`, `partyId`,
`createdAt`, `alg`, `mk_version`) of a record produced by
`encryptTransaction`, in a way that still passes the structural
validator, makes `decryptTransaction` under the original master key fail
with the opaque `AuthenticationFailed` error: the AAD is recomputed from
the altered record's own stored metadata (conclusion 1: it genuinely
differs from the sealed AAD; conclusion 2: the stored wrap tag is the
tag over the original AAD), so the wrap-layer tag check fails
(conclusion 3).  The hypothesis `hideal` is the idealized-AEAD
assumption that the tag function separates the two distinct AADs — the
cryptographic property AES-GCM provides computationally. -/
theorem claim_C2_metadata_binding
    (partyId mkHex : String) (j : Json) (rnd : EncRandomness)
    (rec rec2 : TxSecureRecord) (mkB : List Nat)
    (hb2 : ∀ b ∈ rnd.wrapNonce, b < 256)
    (hbd : ∀ b ∈ rnd.dek, b < 256)
    (henc : encryptTransaction partyId (.json j) mkHex rnd = .ok rec)
    (hmk : parseMasterKeyHex mkHex = .ok mkB)
    (hcrypto : rec2.payload_nonce = rec.payload_nonce ∧
      rec2.payload_ct = rec.payload_ct ∧ rec2.payload_tag = rec.payload_tag ∧
      rec2.dek_wrap_nonce = rec.dek_wrap_nonce ∧
      rec2.dek_wrapped = rec.dek_wrapped ∧ rec2.dek_wrap_tag = rec.dek_wrap_tag)
    (hmeta : (rec2.id, rec2.partyId, rec2.createdAt, rec2.alg, rec2.mk_version) ≠
      (rec.id, rec.partyId, rec.createdAt, rec.alg, rec.mk_version))
    (hval2 : validateRecordShape rec2 = .ok ())
    (hideal : gcmTag mkB (hexPairsToBytes rec2.dek_wrap_nonce.data)
        (hexPairsToBytes rec2.dek_wrapped.data)
        (aadBytes rec2.id rec2.partyId rec2.createdAt rec2.alg rec2.mk_version) ≠
      gcmTag mkB (hexPairsToBytes rec2.dek_wrap_nonce.data)
        (hexPairsToBytes rec2.dek_wrapped.data)
        (aadBytes rec.id rec.partyId rec.createdAt rec.alg rec.mk_version)) :
    aadBytes rec2.id rec2.partyId rec2.createdAt rec2.alg rec2.mk_version ≠
      aadBytes rec.id rec.partyId rec.createdAt rec.alg rec.mk_version ∧
    hexPairsToBytes rec.dek_wrap_tag.data =
      gcmTag mkB (hexPairsToBytes rec.dek_wrap_nonce.data)
        (hexPairsToBytes rec.dek_wrapped.data)
        (aadBytes rec.id rec.partyId rec.createdAt rec.alg rec.mk_version) ∧
    decryptTransaction rec2 mkHex = .error "decryption failed" := by
  obtain ⟨hpid, mkB2, pb, hmk2, hser, hdekl, hmkl2, hrec⟩ :=
    encryptTransaction_ok_inv henc
  rw [hmk2] at hmk
  have hmkB : mkB2 = mkB := by injection hmk
  subst hmkB
  -- the produced record's relevant fields
  have f1 : rec.id = rnd.id := by rw [hrec]
  have f2 : rec.partyId = partyId := by rw [hrec]
  have f3 : rec.createdAt = rnd.createdAt := by rw [hrec]
  have f4 : rec.alg = "AES-256-GCM" := by rw [hrec]
  have f5 : rec.mk_version = 1 := by rw [hrec]
  have f6 : rec.dek_wrap_nonce = toHex rnd.wrapNonce := by rw [hrec]
  have f7 : rec.dek_wrapped = toHex (gcmCipher mkB2 rnd.wrapNonce rnd.dek) := by
    rw [hrec]
  have f8 : rec.dek_wrap_tag = toHex (gcmTag mkB2 rnd.wrapNonce
      (gcmCipher mkB2 rnd.wrapNonce rnd.dek)
      (aadBytes rnd.id partyId rnd.createdAt "AES-256-GCM" 1)) := by
    rw [hrec]
  have dN : hexPairsToBytes (toHex rnd.wrapNonce).data = rnd.wrapNonce :=
    hexPairsToBytes_bytesToHexChars hb2
  have dW : hexPairsToBytes (toHex (gcmCipher mkB2 rnd.wrapNonce rnd.dek)).data =
      gcmCipher mkB2 rnd.wrapNonce rnd.dek :=
    hexPairsToBytes_bytesToHexChars (gcmCipher_lt _ _ hbd)
  have dT : hexPairsToBytes (toHex (gcmTag mkB2 rnd.wrapNonce
      (gcmCipher mkB2 rnd.wrapNonce rnd.dek)
      (aadBytes rnd.id partyId rnd.createdAt "AES-256-GCM" 1))).data =
      gcmTag mkB2 rnd.wrapNonce (gcmCipher mkB2 rnd.wrapNonce rnd.dek)
        (aadBytes rnd.id partyId rnd.createdAt "AES-256-GCM" 1) :=
    hexPairsToBytes_bytesToHexChars (gcmTag_lt _ _ _ _)
  have conj2 : hexPairsToBytes rec.dek_wrap_tag.data =
      gcmTag mkB2 (hexPairsToBytes rec.dek_wrap_nonce.data)
        (hexPairsToBytes rec.dek_wrapped.data)
        (aadBytes rec.id rec.partyId rec.createdAt rec.alg rec.mk_version) := by
    rw [f1, f2, f3, f4, f5, f6, f7, f8, dN, dW, dT]
  refine ⟨?_, conj2, ?_⟩
  · intro hEq
    obtain ⟨e1, e2, e3, e4, e5⟩ := aadBytes_inj hEq
    exact hmeta (by rw [e1, e2, e3, e4, e5])
  · obtain ⟨c1, c2, c3, c4, c5, c6⟩ := hcrypto
    obtain ⟨g1, g2, g3, g4, g5, g6, q1, q2, q3, q4, q5, q6, q7, q8, q9, q10⟩ :=
      validateRecordShape_ok_iff.mp hval2
    have hwnl : (hexPairsToBytes rec2.dek_wrap_nonce.data).length = 12 := by
      rw [hexPairsToBytes_length, string_length_data, q6]
    have hwtl : (hexPairsToBytes rec2.dek_wrap_tag.data).length = 16 := by
      rw [hexPairsToBytes_length, string_length_data, q8]
    have hne : gcmTag mkB2 (hexPairsToBytes rec2.dek_wrap_nonce.data)
        (hexPairsToBytes rec2.dek_wrapped.data)
        (aadBytes rec2.id rec2.partyId rec2.createdAt rec2.alg
          rec2.mk_version) ≠
        hexPairsToBytes rec2.dek_wrap_tag.data := by
      rw [c6]
      rw [show hexPairsToBytes rec.dek_wrap_tag.data =
        gcmTag mkB2 (hexPairsToBytes rec.dek_wrap_nonce.data)
          (hexPairsToBytes rec.dek_wrapped.data)
          (aadBytes rec.id rec.partyId rec.createdAt rec.alg rec.mk_version)
        from conj2]
      rw [← c4, ← c5]
      exact hideal
    unfold decryptTransaction
    simp only [hval2, hmk2, fromHex_isValid q5, fromHex_isValid q7,
      fromHex_isValid q10]
    unfold aesGcmDecrypt
    rw [if_neg (by simp [hmkl2] : ¬mkB2.length ≠ KEY_BYTES),
      if_neg (by simp [hwnl, NONCE_BYTES] :
        ¬(hexPairsToBytes rec2.dek_wrap_nonce.data).length ≠ NONCE_BYTES),
      if_neg (by simp [hwtl, TAG_BYTES] :
        ¬(hexPairsToBytes rec2.dek_wrap_tag.data).length ≠ TAG_BYTES)]
    simp only [if_neg hne]

theorem claim_C2_witness :
    aadBytes rec0meta.id rec0meta.partyId rec0meta.createdAt rec0meta.alg
      rec0meta.mk_version ≠
      aadBytes rec0.id rec0.partyId rec0.createdAt rec0.alg rec0.mk_version ∧
    decryptTransaction rec0meta mkHex0 = .error "decryption failed" := by
  obtain ⟨h1, h2, h3⟩ := claim_C2_metadata_binding "party_123" mkHex0 .null
    rnd0 rec0 rec0meta mkB0 (by decide) (by decide) (by decide) (by decide)
    (by decide) (by decide) (by decide) (by decide)
  exact ⟨h1, h3⟩

/-- C7: every record a successful `encryptTransaction` call returns
passes `validateRecordShape`; its six binary fields are lowercase hex,
the nonces decode to 12 bytes, the tags to 16 bytes, `payload_ct` to
exactly the byte length of the serialized payload and `dek_wrapped` to
32 bytes (the DEK length); `alg` is the fixed supported tag and
`mk_version` is 1. -/
theorem claim_C7_wellformed_record
    (partyId mkHex : String) (j : Json) (rnd : EncRandomness)
    (rec : TxSecureRecord)
    (hn1 : rnd.payloadNonce.length = 12) (hb1 : ∀ b ∈ rnd.payloadNonce, b < 256)
    (hn2 : rnd.wrapNonce.length = 12) (hb2 : ∀ b ∈ rnd.wrapNonce, b < 256)
    (hbd : ∀ b ∈ rnd.dek, b < 256)
    (hid : rnd.id ≠ "") (hdate : dateParseOk rnd.createdAt = true)
    (henc : encryptTransaction partyId (.json j) mkHex rnd = .ok rec) :
    validateRecordShape rec = .ok () ∧
    rec.payload_nonce.data.all isLowerHexChar = true ∧
    rec.payload_ct.data.all isLowerHexChar = true ∧
    rec.payload_tag.data.all isLowerHexChar = true ∧
    rec.dek_wrap_nonce.data.all isLowerHexChar = true ∧
    rec.dek_wrapped.data.all isLowerHexChar = true ∧
    rec.dek_wrap_tag.data.all isLowerHexChar = true ∧
    (hexPairsToBytes rec.payload_nonce.data).length = 12 ∧
    (hexPairsToBytes rec.payload_tag.data).length = 16 ∧
    (hexPairsToBytes rec.dek_wrap_nonce.data).length = 12 ∧
    (hexPairsToBytes rec.dek_wrap_tag.data).length = 16 ∧
    (hexPairsToBytes rec.payload_ct.data).length = (encodeJson j).length ∧
    (hexPairsToBytes rec.dek_wrapped.data).length = 32 ∧
    rec.alg = "AES-256-GCM" ∧ rec.mk_version = 1 := by
  obtain ⟨hpid, mkB, pb, hmk, hser, hdekl, hmkl, hrec⟩ :=
    encryptTransaction_ok_inv henc
  have hpb : encodeJson j = pb := by
    simpa [serializePayload] using hser
  subst hpb
  subst hrec
  have hpn_ne : rnd.payloadNonce ≠ [] := by
    intro h0; rw [h0] at hn1; simp at hn1
  have hwn_ne : rnd.wrapNonce ≠ [] := by
    intro h0; rw [h0] at hn2; simp at hn2
  have hct_lt : ∀ b ∈ gcmCipher rnd.dek rnd.payloadNonce (encodeJson j),
      b < 256 := gcmCipher_lt _ _ (encodeJson_lt j)
  have hct_ne : gcmCipher rnd.dek rnd.payloadNonce (encodeJson j) ≠ [] := by
    intro h0
    have hcl := gcmCipher_length rnd.dek rnd.payloadNonce (encodeJson j)
    rw [h0] at hcl
    exact encodeJson_ne_nil j (List.length_eq_zero.mp hcl.symm)
  have hwct_lt : ∀ b ∈ gcmCipher mkB rnd.wrapNonce rnd.dek, b < 256 :=
    gcmCipher_lt _ _ hbd
  have hwct_ne : gcmCipher mkB rnd.wrapNonce rnd.dek ≠ [] := by
    intro h0
    have hcl := gcmCipher_length mkB rnd.wrapNonce rnd.dek
    rw [h0, hdekl] at hcl
    simp [KEY_BYTES] at hcl
  refine ⟨validateRecordShape_ok_iff.mpr
      ⟨hid, hpid, dateParseOk_ne_empty hdate, hdate, rfl, rfl,
       isValidHex_toHex hpn_ne hb1,
       by simp [toHex_length, hn1],
       isValidHex_toHex (gcmTag_ne_nil _ _ _ _) (gcmTag_lt _ _ _ _),
       by simp [toHex_length, gcmTag_length],
       isValidHex_toHex hwn_ne hb2,
       by simp [toHex_length, hn2],
       isValidHex_toHex (gcmTag_ne_nil _ _ _ _) (gcmTag_lt _ _ _ _),
       by simp [toHex_length, gcmTag_length],
       isValidHex_toHex hct_ne hct_lt,
       isValidHex_toHex hwct_ne hwct_lt⟩,
    bytesToHexChars_all_lower hb1,
    bytesToHexChars_all_lower hct_lt,
    bytesToHexChars_all_lower (gcmTag_lt _ _ _ _),
    bytesToHexChars_all_lower hb2,
    bytesToHexChars_all_lower hwct_lt,
    bytesToHexChars_all_lower (gcmTag_lt _ _ _ _),
    ?_, ?_, ?_, ?_, ?_, ?_, rfl, rfl⟩
  · rw [show hexPairsToBytes (toHex rnd.payloadNonce).data = rnd.payloadNonce
      from hexPairsToBytes_bytesToHexChars hb1, hn1]
  · rw [show hexPairsToBytes (toHex (gcmTag rnd.dek rnd.payloadNonce
        (gcmCipher rnd.dek rnd.payloadNonce (encodeJson j))
        (aadBytes rnd.id partyId rnd.createdAt "AES-256-GCM" 1))).data = _
      from hexPairsToBytes_bytesToHexChars (gcmTag_lt _ _ _ _), gcmTag_length]
  · rw [show hexPairsToBytes (toHex rnd.wrapNonce).data = rnd.wrapNonce
      from hexPairsToBytes_bytesToHexChars hb2, hn2]
  · rw [show hexPairsToBytes (toHex (gcmTag mkB rnd.wrapNonce
        (gcmCipher mkB rnd.wrapNonce rnd.dek)
        (aadBytes rnd.id partyId rnd.createdAt "AES-256-GCM" 1))).data = _
      from hexPairsToBytes_bytesToHexChars (gcmTag_lt _ _ _ _), gcmTag_length]
  · rw [show hexPairsToBytes (toHex (gcmCipher rnd.dek rnd.payloadNonce
        (encodeJson j))).data = _
      from hexPairsToBytes_bytesToHexChars hct_lt, gcmCipher_length]
  · rw [show hexPairsToBytes (toHex (gcmCipher mkB rnd.wrapNonce
        rnd.dek)).data = _
      from hexPairsToBytes_bytesToHexChars hwct_lt, gcmCipher_length, hdekl]
    rfl

theorem claim_C7_witness :
    validateRecordShape rec0 = .ok () ∧
    (hexPairsToBytes rec0.payload_ct.data).length =
      (encodeJson .null).length ∧
    rec0.payload_ct.data.all isLowerHexChar = true := by
  obtain ⟨w1, w2, w3, w4, w5, w6, w7, w8, w9, w10, w11, w12, w13, w14, w15⟩ :=
    claim_C7_wellformed_record "party_123" mkHex0 .null rnd0 rec0
    (by decide) (by decide) (by decide) (by decide) (by decide) (by decide)
    (by decide) (by decide)
  exact ⟨w1, w12, w3⟩

/-- C8: once a record has passed the validator and the master key has
parsed, the AEAD wrapper's own length-error branches (`InvalidKeyLength`,
`InvalidNonceLength`, `InvalidTagLength`) are unreachable in both
decryption calls (every error is the opaque one); and when the wrap
layer opens to a DEK that is not exactly 32 bytes, the defensive check
fails the call with the same opaque `AuthenticationFailed` error. -/
theorem claim_C8_dek_guard :
    (∀ (rec : TxSecureRecord) (mkHex e : String) (mkB : List Nat),
      validateRecordShape rec = .ok () →
      parseMasterKeyHex mkHex = .ok mkB →
      decryptTransaction rec mkHex = .error e →
      e ≠ "key: invalid length" ∧ e ≠ "nonce: invalid length" ∧
        e ≠ "tag: invalid length") ∧
    (∀ (rec : TxSecureRecord) (mkHex : String) (mkB : List Nat),
      validateRecordShape rec = .ok () →
      parseMasterKeyHex mkHex = .ok mkB →
      gcmTag mkB (hexPairsToBytes rec.dek_wrap_nonce.data)
          (hexPairsToBytes rec.dek_wrapped.data)
          (aadBytes rec.id rec.partyId rec.createdAt rec.alg rec.mk_version) =
        hexPairsToBytes rec.dek_wrap_tag.data →
      (gcmCipher mkB (hexPairsToBytes rec.dek_wrap_nonce.data)
          (hexPairsToBytes rec.dek_wrapped.data)).length ≠ 32 →
      decryptTransaction rec mkHex = .error "decryption failed") := by
  constructor
  · intro rec mkHex e mkB hval hmk herr
    have h := decrypt_error_opaque hval hmk e herr
    subst h
    exact ⟨by decide, by decide, by decide⟩
  · intro rec mkHex mkB hval hmk htag hlen
    obtain ⟨h1, h2, h3, h4, h5, h6, q1, q2, q3, q4, q5, q6, q7, q8, q9, q10⟩ :=
      validateRecordShape_ok_iff.mp hval
    have hmkl : mkB.length = 32 := parseMasterKeyHex_length hmk
    have hwnl : (hexPairsToBytes rec.dek_wrap_nonce.data).length = 12 := by
      rw [hexPairsToBytes_length, string_length_data, q6]
    have hwtl : (hexPairsToBytes rec.dek_wrap_tag.data).length = 16 := by
      rw [hexPairsToBytes_length, string_length_data, q8]
    unfold decryptTransaction
    simp only [hval, hmk, fromHex_isValid q5, fromHex_isValid q7,
      fromHex_isValid q10]
    unfold aesGcmDecrypt
    rw [if_neg (by simp [hmkl, KEY_BYTES] : ¬mkB.length ≠ KEY_BYTES),
      if_neg (by simp [hwnl, NONCE_BYTES] :
        ¬(hexPairsToBytes rec.dek_wrap_nonce.data).length ≠ NONCE_BYTES),
      if_neg (by simp [hwtl, TAG_BYTES] :
        ¬(hexPairsToBytes rec.dek_wrap_tag.data).length ≠ TAG_BYTES)]
    simp only [if_pos htag]
    rw [if_pos (by simpa [KEY_BYTES] using hlen :
      (gcmCipher mkB (hexPairsToBytes rec.dek_wrap_nonce.data)
        (hexPairsToBytes rec.dek_wrapped.data)).length ≠ KEY_BYTES)]

theorem claim_C8_witness :
    decryptTransaction rec0short mkHex0 = .error "decryption failed" ∧
    ("decryption failed" ≠ "key: invalid length" ∧
     "decryption failed" ≠ "nonce: invalid length" ∧
     "decryption failed" ≠ "tag: invalid length") := by
  refine ⟨claim_C8_dek_guard.2 rec0short mkHex0 mkB0 (by decide) (by decide)
    (by decide) (by decide), ?_⟩
  exact claim_C8_dek_guard.1 rec0short mkHex0 "decryption failed" mkB0
    (by decide) (by decide) (by decide)

/-- C9: `decryptTransaction` is deterministic — structurally equal
records and identical keys give identical outcomes — while
`encryptTransaction` is randomized through its drawn values: two calls
whose drawn ids differ can never return the same record. -/
theorem claim_C9_decrypt_deterministic :
    (∀ (r1 r2 : TxSecureRecord) (k1 k2 : String), r1 = r2 → k1 = k2 →
      decryptTransaction r1 k1 = decryptTransaction r2 k2) ∧
    (∀ (partyId mkHex : String) (payload : JsValue) (rnd rnd2 : EncRandomness)
        (rec rec2 : TxSecureRecord),
      encryptTransaction partyId payload mkHex rnd = .ok rec →
      encryptTransaction partyId payload mkHex rnd2 = .ok rec2 →
      rnd.id ≠ rnd2.id → rec ≠ rec2) := by
  constructor
  · intro r1 r2 k1 k2 h1 h2
    rw [h1, h2]
  · intro partyId mkHex payload rnd rnd2 rec rec2 h1 h2 hne hEq
    obtain ⟨-, mkB, pb, -, -, -, -, hrec⟩ := encryptTransaction_ok_inv h1
    obtain ⟨-, mkB2, pb2, -, -, -, -, hrec2⟩ := encryptTransaction_ok_inv h2
    apply hne
    have e1 : rec.id = rnd.id := by rw [hrec]
    have e2 : rec2.id = rnd2.id := by rw [hrec2]
    rw [← e1, ← e2, hEq]

theorem claim_C9_witness :
    decryptTransaction rec0 mkHex0 = decryptTransaction rec0 mkHex0 ∧
    rec0 ≠ rec1 := by
  refine ⟨claim_C9_decrypt_deterministic.1 rec0 rec0 mkHex0 mkHex0 rfl rfl, ?_⟩
  exact claim_C9_decrypt_deterministic.2 "party_123" mkHex0 (.json .null)
    rnd0 rnd1 rec0 rec1 (by decide) (by decide) (by decide)

end SecureTx
